import Mathlib

/-!
Verification development for md2pdf (src/md2pdf/converter.py).

The program is shell-out plumbing around two external binaries (pandoc and
typst).  The logic verified here is the pure orchestration core, embedded
shallowly: Python strings become `List Char`, Python `str` methods used by
the code (`replace`, `split`, `strip`, `startswith`, `lower`) are defined
below with Python's semantics, and the YAML library call is a parameter of
the extractor (it is an external library, not part of this repository).
Subprocess invocations are modelled by their observable outcomes.
-/

/-- Characters treated as whitespace by Python's `str.strip()` and by the
`\s` class of the `re` module (ASCII range, which is all this program
feeds them). -/
def isPySpace (c : Char) : Bool :=
  c = ' ' || c = '\t' || c = '\n' || c = '\r' || c = '\x0b' || c = '\x0c'

/-- Python `str.strip()`: drop leading and trailing whitespace. -/
def pyStrip (s : List Char) : List Char :=
  ((s.dropWhile isPySpace).reverse.dropWhile isPySpace).reverse

/-- Index of the leftmost occurrence of `sep` in `s`, if any.  Mirrors the
scanning order of Python's `str.find` / `str.split`. -/
def firstOccIdx (sep s : List Char) : Option Nat :=
  (List.range (s.length + 1)).find? (fun i => sep.isPrefixOf (s.drop i))

/-- Python `s.split(sep, maxsplit)` for a non-empty separator: split on the
leftmost occurrences, at most `maxsplit` times.  The converter only calls
this as `content.split('---', 2)`. -/
def pySplit (sep : List Char) : Nat → List Char → List (List Char)
  | 0, s => [s]
  | Nat.succ maxsplit, s =>
    match firstOccIdx sep s with
    | none => [s]
    | some i => s.take i :: pySplit sep maxsplit (s.drop (i + sep.length))

/-- Fuel-indexed worker for Python `str.replace`: scan left to right; at a
match of `pat`, emit `rep` and continue after the matched text
(non-overlapping, leftmost-first, all occurrences).  The fuel (length of
the scanned list) only makes the recursion structural; `pyReplace` always
supplies enough. -/
def pyReplaceAux (pat rep : List Char) : Nat → List Char → List Char
  | _, [] => []
  | 0, s => s
  | Nat.succ fuel, c :: rest =>
    if !pat.isEmpty && pat.isPrefixOf (c :: rest) then
      rep ++ pyReplaceAux pat rep fuel (rest.drop (pat.length - 1))
    else
      c :: pyReplaceAux pat rep fuel rest

/-- Python `s.replace(pat, rep)` for a non-empty pattern (every pattern the
converter uses is non-empty). -/
def pyReplace (pat rep s : List Char) : List Char :=
  pyReplaceAux pat rep s.length s

/-- A resolved metadata value.  Mirrors the runtime types the converter
distinguishes with `isinstance` (converter.py lines 154-172): `str`,
`bool` (checked before `int`, as in the code), `int`/`float` numerics
(modelled over `Int`; no claim depends on float formatting), and any other
type, carried as its `str()` rendering. -/
inductive Value where
  | str (s : List Char)
  | bool (b : Bool)
  | int (n : Int)
  | other (rendered : List Char)
deriving DecidableEq

/-- The field mapping produced by the header extractor: an ordered list of
key/value pairs (Python dicts preserve insertion order). -/
abbrev Fields := List (List Char × Value)

/-- The `---` delimiter the extractor splits on (converter.py line 36). -/
def yamlDelim : List Char := ['-', '-', '-']

/-- The `---\n` opening line the extractor requires (converter.py line 35). -/
def yamlDelimLine : List Char := ['-', '-', '-', '\n']

/-- Embedding of `parse_header_fields` (converter.py lines 27-47).  The
call to `yaml.safe_load` is a parameter, since PyYAML is an external
library: `Except.error` models a raised `YAMLError` (caught by the code),
`Except.ok none` models a `None` result (empty or comment-only header),
and `Except.ok (some f)` a parsed mapping. -/
def parse_header_fields (yamlParse : List Char → Except Unit (Option Fields))
    (content : List Char) : Fields :=
  if yamlDelimLine.isPrefixOf content then
    let parts := pySplit yamlDelim 2 content
    if 2 ≤ parts.length then
      match yamlParse (pyStrip (parts.getD 1 [])) with
      | Except.error _ => []
      | Except.ok none => []
      | Except.ok (some fields) => fields
    else []
  else []

/-- Minimal executable model of `yaml.safe_load`, used only to instantiate
the extractor at concrete inputs: it handles the empty document (PyYAML
returns `None`), and a single `key: value` scalar line (PyYAML returns a
one-entry mapping of strings).  Anything else is a parse error.  On every
input appearing in a theorem below its verdict matches PyYAML's. -/
def yamlSimple (s : List Char) : Except Unit (Option Fields) :=
  if s.isEmpty then Except.ok none
  else
    match firstOccIdx [':'] s with
    | some i =>
        Except.ok (some [(pyStrip (s.take i), Value.str (pyStrip (s.drop (i + 1))))])
    | none => Except.error ()

/-- The `\x7b\x7bkey\x7d\x7d` placeholder built by converter.py line 95. -/
def placeholder (k : List Char) : List Char :=
  '{' :: '{' :: (k ++ ['}', '}'])

/-- Embedding of the placeholder-substitution loop (converter.py lines
93-96): iterate over the resolved fields in order and, for each
string-valued field, replace every occurrence of its placeholder with the
value; non-string values are skipped. -/
def substituteFields (fields : Fields) (content : List Char) : List Char :=
  fields.foldl
    (fun acc kv =>
      match kv.2 with
      | Value.str v => pyReplace (placeholder kv.1) v acc
      | _ => acc)
    content

/-- Key normalization for Typst parameters (converter.py line 152):
`key.replace(' ', '_').replace('-', '_').lower()`. -/
def normalizeKey (k : List Char) : List Char :=
  (pyReplace ['-'] ['_'] (pyReplace [' '] ['_'] k)).map Char.toLower

/-- Escaping for short quoted strings (converter.py line 163):
`value.replace('\\', '\\\\').replace('"', '\\"')`. -/
def quoteEscape (s : List Char) : List Char :=
  pyReplace ['"'] ['\\', '"'] (pyReplace ['\\'] ['\\', '\\'] s)

/-- Escaping for stringified other-typed values (converter.py line 171):
backslashes, quotes and newlines are escaped. -/
def fullEscape (s : List Char) : List Char :=
  pyReplace ['\n'] ['\\', 'n'] (quoteEscape s)

/-- Embedding of one iteration of the parameter-serialization loop
(converter.py lines 154-172), producing the `  key: value,` line for one
field.  A string containing a newline or longer than 100 characters
becomes a bracketed content block holding `value.strip()`; a short string
becomes a quoted literal with backslash/quote escaping; booleans and
numbers become bare tokens; anything else is stringified and quoted. -/
def formatParamLine (key : List Char) (v : Value) : List Char :=
  let nk := normalizeKey key
  match v with
  | Value.str s =>
    if '\n' ∈ s ∨ 100 < s.length then
      "  ".toList ++ nk ++ ": [".toList ++ pyStrip s ++ "],".toList
    else
      "  ".toList ++ nk ++ ": \"".toList ++ quoteEscape s ++ "\",".toList
  | Value.bool b =>
      "  ".toList ++ nk ++ ": ".toList ++
        (if b then "true".toList else "false".toList) ++ [',']
  | Value.int n =>
      "  ".toList ++ nk ++ ": ".toList ++ (toString n).toList ++ [',']
  | Value.other rendered =>
      "  ".toList ++ nk ++ ": \"".toList ++ fullEscape rendered ++ "\",".toList

/-- The full serialization loop (converter.py lines 145-172): the reserved
`template` key is skipped, every other field yields one parameter line, in
mapping order. -/
def buildParams (fields : Fields) : List (List Char) :=
  (fields.filter (fun kv => kv.1 ≠ "template".toList)).map
    (fun kv => formatParamLine kv.1 kv.2)

/-- Character class `[\w-]` of the template-declaration regex
(converter.py line 138), over the ASCII range the program uses. -/
def wordOrDash (c : Char) : Bool :=
  c.isAlphanum || c = '_' || c = '-'

/-- Attempt to match the regex `#let\s+([\w-]+)\s*\(` at the start of `s`,
returning the captured name.  Greedy matching without backtracking is
exact here because the character classes of adjacent pieces are
disjoint. -/
def matchLetAt (s : List Char) : Option (List Char) :=
  if ("#let".toList).isPrefixOf s then
    let rest := s.drop 4
    if (rest.takeWhile isPySpace).isEmpty then none
    else
      let rest2 := rest.dropWhile isPySpace
      let fname := rest2.takeWhile wordOrDash
      if fname.isEmpty then none
      else
        match (rest2.dropWhile wordOrDash).dropWhile isPySpace with
        | '(' :: _ => some fname
        | _ => none
  else none

/-- Embedding of the entry-point detection (converter.py lines 137-142):
`re.search` of `#let\s+([\w-]+)\s*\(` over the template text — leftmost
match wins — with fallback name `report` when nothing matches. -/
def detectTemplateFunc (tpl : List Char) : List Char :=
  match (List.range tpl.length).findSome? (fun i => matchLetAt (tpl.drop i)) with
  | some fname => fname
  | none => "report".toList

/-- Observable outcome of one `convert_markdown_to_pdf` call: `ok` models
`return True` (line 204); `toolFail` models `return False` from the
`subprocess.CalledProcessError` handler (lines 206-211); `excFail` models
`return False` from the generic `Exception` handler (lines 212-220).  No
exception propagates past the function. -/
inductive ConvOutcome where
  | ok
  | toolFail
  | excFail
deriving DecidableEq

/-- Which intermediate artifacts of one conversion still exist on disk
when `convert_markdown_to_pdf` returns: the substituted markdown
(`*.temp.md`, line 82), the intermediate Typst file (line 71), and the
copied template (line 130). -/
structure TempState where
  tempMd : Bool
  tempTypst : Bool
  tempTemplate : Bool
deriving DecidableEq

/-- Trace model of `convert_markdown_to_pdf` (converter.py lines 50-220)
at the level the cleanup claims observe.  Inputs: whether pandoc exits
zero, whether pandoc left its output file behind when it failed, whether
typst exits zero, and an optional generic-exception point (`some 0`:
before the pandoc call; `some 1`: between the two tool calls).  The
generic handler (lines 212-220) deletes every temp file that exists, so
every generic-exception exit leaves no artifacts; the
`CalledProcessError` handler (lines 206-211) deletes nothing.  On the
pandoc-failure path the substituted markdown still exists (deleted only at
line 125) and the template is not yet copied; on the typst-failure path
the markdown is already deleted but the Typst file (rewritten at line 186)
and the copied template exist.  The success path deletes all three (lines
125, 199-201). -/
def convertRun (pandocOk pandocWrote typstOk : Bool) (excAt : Option (Fin 2)) :
    ConvOutcome × TempState :=
  if excAt = some 0 then (ConvOutcome.excFail, ⟨false, false, false⟩)
  else if !pandocOk then (ConvOutcome.toolFail, ⟨true, pandocWrote, false⟩)
  else if excAt = some 1 then (ConvOutcome.excFail, ⟨false, false, false⟩)
  else if !typstOk then (ConvOutcome.toolFail, ⟨false, true, true⟩)
  else (ConvOutcome.ok, ⟨false, false, false⟩)

/-- Index (0-based) of the first failing row, scanning in order; mirrors
the merge-mode loop's early `sys.exit(1)` test (converter.py lines
341-353). -/
def findFirstFailure : Nat → List Bool → Option Nat
  | _, [] => none
  | i, ok :: rest => if ok then findFirstFailure (i + 1) rest else some i

/-- Observable outcome of the merge-mode batch driver: process exit code,
whether any PDF-merge provider was invoked, whether the final merged
output was produced, and how many row conversions were attempted. -/
structure MergeRunResult where
  exitCode : Nat
  mergeInvoked : Bool
  outputProduced : Bool
  rowsConverted : Nat
deriving DecidableEq

/-- Trace model of the merge-mode branch of `main` (converter.py lines
338-391).  Each row's pipeline outcome is given as a `Bool`; the first
failure triggers `sys.exit(1)` (line 353) before any merge provider runs,
so no output is produced.  When all rows succeed, the merge-provider
chain (pdfunite, then pdftk, then PyPDF2 — lines 356-385) is collapsed
into a single `mergeOk` flag: success produces the output and exit code 0,
failure of every provider exits 1 with no output (line 385). -/
def runMergeBatch (rows : List Bool) (mergeOk : Bool) : MergeRunResult :=
  match findFirstFailure 0 rows with
  | some i => ⟨1, false, false, i + 1⟩
  | none =>
    if mergeOk then ⟨0, true, true, rows.length⟩
    else ⟨1, true, false, rows.length⟩

/-- The per-row report stream of the per-row batch loop (converter.py
lines 397-416): one `(row index, success)` entry per row, in order; the
loop never exits early. -/
def perRowReports : Nat → List Bool → List (Nat × Bool)
  | _, [] => []
  | i, ok :: rest => (i, ok) :: perRowReports (i + 1) rest

/-- Observable outcome of the per-row batch driver. -/
structure PerRowResult where
  exitCode : Nat
  reports : List (Nat × Bool)
deriving DecidableEq

/-- Trace model of the per-row branch of `main` (converter.py lines
392-418): every row is processed and individually reported, and the
branch always ends in `sys.exit(0)` (line 418). -/
def runPerRowBatch (rows : List Bool) : PerRowResult :=
  ⟨0, perRowReports 0 rows⟩

/-- The `recipient` column key (converter.py line 399). -/
def recipientKey : List Char := "recipient".toList

/-- Sanitization of the recipient value (converter.py line 400):
`row['recipient'].replace(' ', '_').replace('/', '_')`. -/
def sanitizeRecipient (r : List Char) : List Char :=
  pyReplace ['/'] ['_'] (pyReplace [' '] ['_'] r)

/-- Per-row output filename (converter.py lines 399-403): the output stem
plus the sanitized recipient when the row has one, else the stem plus the
1-based row index (`i` is the 0-based enumeration index). -/
def rowFileName (base : List Char) (i : Nat) (row : List (List Char × List Char)) :
    List Char :=
  match row.lookup recipientKey with
  | some r => base ++ '_' :: (sanitizeRecipient r ++ ".pdf".toList)
  | none => base ++ '_' :: ((toString (i + 1)).toList ++ ".pdf".toList)

/-! Helper lemmas about the string primitives. -/

-- Replacing a pattern that does not occur in the text leaves it unchanged
-- (any fuel; the fuel-exhausted branch also returns the text unchanged).
theorem pyReplaceAux_no_occ (pat rep : List Char) :
    ∀ (fuel : Nat) (s : List Char), ¬ pat <:+: s → pyReplaceAux pat rep fuel s = s := by
  intro fuel
  induction fuel with
  | zero => intro s h; cases s <;> rfl
  | succ fuel ih =>
    intro s h
    cases s with
    | nil => rfl
    | cons c rest =>
      have hpat : ¬ pat.isEmpty := by
        cases pat with
        | nil => exact absurd ( List.nil_infix) h
        | cons x xs => simp [List.isEmpty]
      have hpre : pat.isPrefixOf (c :: rest) = false := by
        cases hx : pat.isPrefixOf (c :: rest) with
        | false => rfl
        | true =>
          exact absurd ( List.IsPrefix.isInfix ( List.isPrefixOf_iff_prefix.mp hx)) h
      have hrest : ¬ pat <:+: rest := fun hinf => h ( List.infix_cons hinf)
      simp only [pyReplaceAux, hpre, Bool.and_false, Bool.false_eq_true, if_false]
      rw [ih rest hrest]

theorem pyReplace_no_occ (pat rep s : List Char) (h : ¬ pat <:+: s) :
    pyReplace pat rep s = s :=
  pyReplaceAux_no_occ pat rep s.length s h

-- A substitution pass over text containing none of the fields' placeholders
-- is the identity.
theorem substituteFields_eq_self (fields : Fields) (s : List Char)
    (h : ∀ k v, (k, Value.str v) ∈ fields → ¬ placeholder k <:+: s) :
    substituteFields fields s = s := by
  induction fields with
  | nil => rfl
  | cons kv rest ih =>
    obtain ⟨k, v⟩ := kv
    cases v with
    | str vs =>
      have hstep : pyReplace (placeholder k) vs s = s :=
        pyReplace_no_occ _ _ _ (h k vs (List.mem_cons_self _ _))
      simp only [substituteFields, List.foldl_cons, hstep]
      exact ih (fun k' v' hm => h k' v' (List.mem_cons_of_mem _ hm))
    | bool b =>
      simp only [substituteFields, List.foldl_cons]
      exact ih (fun k' v' hm => h k' v' (List.mem_cons_of_mem _ hm))
    | int n =>
      simp only [substituteFields, List.foldl_cons]
      exact ih (fun k' v' hm => h k' v' (List.mem_cons_of_mem _ hm))
    | other r =>
      simp only [substituteFields, List.foldl_cons]
      exact ih (fun k' v' hm => h k' v' (List.mem_cons_of_mem _ hm))

-- Characters of a single-character replacement: each output character is
-- either the replacement or an original character differing from the
-- pattern (given enough fuel).
theorem mem_pyReplaceAux_single (p q : Char) :
    ∀ (fuel : Nat) (s : List Char), s.length ≤ fuel →
      ∀ c, c ∈ pyReplaceAux [p] [q] fuel s → c = q ∨ (c ∈ s ∧ c ≠ p) := by
  intro fuel
  induction fuel with
  | zero =>
    intro s hs c hc
    have : s = [] := List.length_eq_zero.mp (Nat.le_zero.mp hs)
    subst this
    simp [pyReplaceAux] at hc
  | succ fuel ih =>
    intro s hs c hc
    cases s with
    | nil => simp [pyReplaceAux] at hc
    | cons a rest =>
      have hlen : rest.length ≤ fuel := Nat.le_of_succ_le_succ hs
      by_cases hp : [p].isPrefixOf (a :: rest)
      · simp only [pyReplaceAux, hp, List.isEmpty, Bool.not_false, Bool.and_true,
          Bool.true_and, if_true, List.drop_zero] at hc
        rcases List.mem_cons.mp hc with hq | hmem
        · exact Or.inl hq
        · rcases ih rest hlen c hmem with hq | ⟨hin, hne⟩
          · exact Or.inl hq
          · exact Or.inr ⟨List.mem_cons_of_mem _ hin, hne⟩
      · have hpe : [p].isPrefixOf (a :: rest) = false := by
          cases hx : [p].isPrefixOf (a :: rest) with
          | false => rfl
          | true => exact absurd hx hp
        have hne : a ≠ p := by
          intro he
          subst he
          simp [List.isPrefixOf] at hpe
        simp only [pyReplaceAux, hpe, Bool.and_false, Bool.false_eq_true, if_false] at hc
        rcases List.mem_cons.mp hc with ha | hmem
        · exact Or.inr ⟨by simp [ha], by rw [ha]; exact hne⟩
        · rcases ih rest hlen c hmem with hq | ⟨hin, hne'⟩
          · exact Or.inl hq
          · exact Or.inr ⟨List.mem_cons_of_mem _ hin, hne'⟩

theorem mem_pyReplace_single (p q : Char) (s : List Char) (c : Char)
    (hc : c ∈ pyReplace [p] [q] s) : c = q ∨ (c ∈ s ∧ c ≠ p) :=
  mem_pyReplaceAux_single p q s.length s le_rfl c hc

-- The sanitized recipient component contains no space and no slash.
theorem sanitizeRecipient_clean (r : List Char) :
    ' ' ∉ sanitizeRecipient r ∧ '/' ∉ sanitizeRecipient r := by
  constructor
  · intro h
    rcases mem_pyReplace_single '/' '_' _ _ h with h1 | ⟨h2, _⟩
    · exact absurd h1 (by decide)
    · rcases mem_pyReplace_single ' ' '_' _ _ h2 with h3 | ⟨_, h4⟩
      · exact absurd h3 (by decide)
      · exact h4 rfl
  · intro h
    rcases mem_pyReplace_single '/' '_' _ _ h with h1 | ⟨_, h2⟩
    · exact absurd h1 (by decide)
    · exact h2 rfl

-- The merge-mode row loop finds a failing row whenever one exists.
theorem findFirstFailure_isSome_of_mem :
    ∀ (n : Nat) (rows : List Bool), false ∈ rows → (findFirstFailure n rows).isSome := by
  intro n rows
  induction rows generalizing n with
  | nil => intro h; simp at h
  | cons r rest ih =>
    intro h
    cases r with
    | false => simp [findFirstFailure]
    | true =>
      have : false ∈ rest := by
        rcases List.mem_cons.mp h with h1 | h1
        · exact absurd h1.symm (by decide)
        · exact h1
      simpa [findFirstFailure] using ih (n + 1) this

-- The failing-row index found by the loop lies within the row list.
theorem findFirstFailure_lt :
    ∀ (rows : List Bool) (n i : Nat), findFirstFailure n rows = some i → i < n + rows.length := by
  intro rows
  induction rows with
  | nil => intro n i h; simp [findFirstFailure] at h
  | cons r rest ih =>
    intro n i h
    cases r with
    | false =>
      simp [findFirstFailure] at h
      subst h
      simp
    | true =>
      simp only [findFirstFailure, if_true] at h
      have := ih (n + 1) i h
      simp only [List.length_cons]
      omega

-- The per-row loop reports exactly the given row outcomes, in order.
theorem perRowReports_snd :
    ∀ (n : Nat) (rows : List Bool), (perRowReports n rows).map Prod.snd = rows := by
  intro n rows
  induction rows generalizing n with
  | nil => rfl
  | cons r rest ih => simp [perRowReports, ih]

-- The per-row loop reports consecutive row indices starting at its seed.
theorem perRowReports_fst :
    ∀ (n : Nat) (rows : List Bool), (perRowReports n rows).map Prod.fst = List.range' n rows.length := by
  intro n rows
  induction rows generalizing n with
  | nil => rfl
  | cons r rest ih => simp [perRowReports, List.range'_succ, ih]

/-! Claim theorems. -/

/-- C1 counterexample: a document that begins with the delimiter but has no
closing delimiter splits into only two segments, yet the extractor does not
return an empty mapping — it parses the lone inner segment and returns its
fields.  This refutes the claim that fewer than three segments forces an
empty mapping. -/
theorem c1_counterexample :
    (pySplit yamlDelim 2 "---\ntitle: x".toList).length = 2 ∧
    parse_header_fields yamlSimple "---\ntitle: x".toList =
      [("title".toList, Value.str "x".toList)] ∧
    parse_header_fields yamlSimple "---\ntitle: x".toList ≠ [] := by
  decide

/-- C1 amended: for every yaml parser and every input text, the extractor
returns an empty mapping when the text does not begin with the delimiter
line, when the first inner segment fails to parse, or when it parses to no
value; the code only requires two split segments (which the opening
delimiter always provides), so a missing closing delimiter does not force
an empty mapping.  The extractor is total, so no case raises an error. -/
theorem c1_amended_extractor (yamlParse : List Char → Except Unit (Option Fields))
    (content : List Char) :
    (¬ yamlDelimLine.isPrefixOf content = true →
      parse_header_fields yamlParse content = []) ∧
    (yamlParse (pyStrip ((pySplit yamlDelim 2 content).getD 1 [])) = Except.error () →
      parse_header_fields yamlParse content = []) ∧
    (yamlParse (pyStrip ((pySplit yamlDelim 2 content).getD 1 [])) = Except.ok none →
      parse_header_fields yamlParse content = []) := by
  refine ⟨?_, ?_, ?_⟩
  · intro h
    simp only [Bool.not_eq_true] at h
    simp [parse_header_fields, h]
  · intro h
    unfold parse_header_fields
    split
    · simp only [h]
      split <;> rfl
    · rfl
  · intro h
    unfold parse_header_fields
    split
    · simp only [h]
      split <;> rfl
    · rfl

/-- C1 witness: the amended theorem applied at three concrete documents,
one per empty-mapping case (no opening delimiter; unparsable header;
header parsing to no value). -/
theorem c1_amended_extractor_witness :
    parse_header_fields yamlSimple "not a header".toList = [] ∧
    parse_header_fields yamlSimple "---\njunk\n---\nbody".toList = [] ∧
    parse_header_fields yamlSimple "---\n\n---\nbody".toList = [] :=
  ⟨(c1_amended_extractor yamlSimple _).1 (by decide),
   (c1_amended_extractor yamlSimple _).2.1 (by rfl),
   (c1_amended_extractor yamlSimple _).2.2 (by rfl)⟩

/-- C10: when the header block is present and the structured parser yields
no value (empty or comment-only header), the extractor returns the empty
mapping — a well-defined value every downstream iteration can consume. -/
theorem c10_none_parse_empty_mapping
    (yamlParse : List Char → Except Unit (Option Fields)) (content : List Char)
    (h : yamlParse (pyStrip ((pySplit yamlDelim 2 content).getD 1 [])) = Except.ok none) :
    parse_header_fields yamlParse content = [] := by
  unfold parse_header_fields
  split
  · simp only [h]
    split <;> rfl
  · rfl

/-- C10 witness: a document whose header block holds only whitespace
parses to no value, and the extractor returns the empty mapping. -/
theorem c10_none_parse_empty_mapping_witness :
    parse_header_fields yamlSimple "---\n   \n---\ntext".toList = [] :=
  c10_none_parse_empty_mapping yamlSimple _ (by rfl)

/-- C2 counterexample: the value `a\n` contains a newline, so it is
serialized as a bracketed block, but the block holds the stripped value
`a`, not the verbatim value — the trailing newline is removed, refuting
the no-characters-removed claim. -/
theorem c2_counterexample :
    formatParamLine "note".toList (Value.str ['a', '\n']) = "  note: [a],".toList ∧
    formatParamLine "note".toList (Value.str ['a', '\n']) ≠
      "  note: [".toList ++ ['a', '\n'] ++ "],".toList := by
  decide

/-- C2 amended: for every string field value longer than 100 characters or
containing a newline, the serializer emits a bracketed literal block whose
content is the field value with leading and trailing whitespace stripped
(Python `str.strip()`); interior characters, including interior newlines,
are kept verbatim with no escaping. -/
theorem c2_amended_long_string (key s : List Char) (h : '\n' ∈ s ∨ 100 < s.length) :
    formatParamLine key (Value.str s) =
      "  ".toList ++ normalizeKey key ++ ": [".toList ++ pyStrip s ++ "],".toList := by
  simp only [formatParamLine]
  rw [if_pos h]

/-- C2 witness: the amended theorem applied to a two-line value. -/
theorem c2_amended_long_string_witness :
    ('\n' ∈ "line1\nline2".toList ∨ 100 < "line1\nline2".toList.length) ∧
    formatParamLine "Long-Note".toList (Value.str "line1\nline2".toList) =
      "  ".toList ++ normalizeKey "Long-Note".toList ++ ": [".toList ++
        pyStrip "line1\nline2".toList ++ "],".toList :=
  ⟨by decide, c2_amended_long_string "Long-Note".toList "line1\nline2".toList (by decide)⟩

/-- C3 counterexample: when pandoc exits non-zero the conversion returns
through the tool-failure handler with the substituted markdown file still
on disk — an exit path on which an intermediate artifact is not deleted,
refuting deletion on every exit path. -/
theorem c3_counterexample :
    (convertRun false false true none).1 = ConvOutcome.toolFail ∧
    (convertRun false false true none).2.tempMd = true := by
  decide

/-- C3 amended: intermediate artifacts are deleted on the success path and
on every generic-exception path, but not on external-tool-failure paths:
pandoc failure leaves the substituted markdown (and the partial markup
file, if pandoc produced one) on disk, and compiler failure leaves the
markup file and the copied template on disk. -/
theorem c3_amended_cleanup (p w t : Bool) :
    convertRun p w t (some 0) = (ConvOutcome.excFail, ⟨false, false, false⟩) ∧
    convertRun true w t (some 1) = (ConvOutcome.excFail, ⟨false, false, false⟩) ∧
    convertRun true w true none = (ConvOutcome.ok, ⟨false, false, false⟩) ∧
    convertRun false w t none = (ConvOutcome.toolFail, ⟨true, w, false⟩) ∧
    convertRun true w false none = (ConvOutcome.toolFail, ⟨false, true, true⟩) := by
  revert p w t
  decide

/-- C4: whenever an external tool invocation exits non-zero, the
conversion returns the tool-failure status (a `False` return, not a
propagated exception), and the intermediate markup file is exactly as the
failing tool left it — it exists whenever it was produced, and is never
deleted on this path. -/
theorem c4_tool_failure_preserves_markup (w t : Bool) :
    (convertRun false w t none).1 = ConvOutcome.toolFail ∧
    (convertRun false w t none).2.tempTypst = w ∧
    (convertRun true w false none).1 = ConvOutcome.toolFail ∧
    (convertRun true w false none).2.tempTypst = true := by
  revert w t
  decide

/-- C5: in batch merge mode, if any row's pipeline fails, the batch exits
with status 1 at the first failing row, never invokes a merge provider,
and produces no final output file. -/
theorem c5_merge_abort (rows : List Bool) (mergeOk : Bool) (h : false ∈ rows) :
    (runMergeBatch rows mergeOk).exitCode = 1 ∧
    (runMergeBatch rows mergeOk).mergeInvoked = false ∧
    (runMergeBatch rows mergeOk).outputProduced = false ∧
    (runMergeBatch rows mergeOk).rowsConverted ≤ rows.length := by
  have hs := findFirstFailure_isSome_of_mem 0 rows h
  obtain ⟨i, hi⟩ := Option.isSome_iff_exists.mp hs
  have hb := findFirstFailure_lt rows 0 i hi
  unfold runMergeBatch
  rw [hi]
  refine ⟨rfl, rfl, rfl, ?_⟩
  simpa using hb

/-- C5 witness: a three-row batch whose second row fails aborts with exit
code 1 before any merge. -/
theorem c5_merge_abort_witness :
    (runMergeBatch [true, false, true] true).exitCode = 1 ∧
    (runMergeBatch [true, false, true] true).mergeInvoked = false ∧
    (runMergeBatch [true, false, true] true).outputProduced = false ∧
    (runMergeBatch [true, false, true] true).rowsConverted ≤ [true, false, true].length :=
  c5_merge_abort [true, false, true] true (by decide)

/-- C6: in batch per-row mode the driver processes every row — the report
stream carries one entry per row, with the row indices in order and each
row's success or failure reported individually — and the branch always
exits with status 0, failures included. -/
theorem c6_per_row_continues (rows : List Bool) :
    (runPerRowBatch rows).exitCode = 0 ∧
    ((runPerRowBatch rows).reports).map Prod.snd = rows ∧
    ((runPerRowBatch rows).reports).map Prod.fst = List.range rows.length := by
  refine ⟨rfl, perRowReports_snd 0 rows, ?_⟩
  rw [List.range_eq_range']
  exact perRowReports_fst 0 rows

/-- C7 counterexample: the single field `a` has value `a`, which contains
no brace characters at all (hence certainly no placeholder-shaped text),
yet substitution over this body is not idempotent: the first pass
assembles a new placeholder out of body-level braces, which the second
pass then consumes. -/
theorem c7_counterexample :
    '{' ∉ ['a'] ∧ '}' ∉ ['a'] ∧
    substituteFields [(['a'], Value.str ['a'])]
        (substituteFields [(['a'], Value.str ['a'])]
          ['{', '{', '{', '{', 'a', '}', '}', '}', '}']) ≠
      substituteFields [(['a'], Value.str ['a'])]
        ['{', '{', '{', '{', 'a', '}', '}', '}', '}'] := by
  decide

/-- C7 amended: substitution is idempotent whenever the once-substituted
text contains no remaining placeholder of any string-valued field; brace
fragments in the values or the body can combine during the first pass into
new placeholders and defeat idempotence even when no field value itself
contains placeholder-shaped text. -/
theorem c7_amended_idempotent (fields : Fields) (content : List Char)
    (h : ∀ k v, (k, Value.str v) ∈ fields →
      ¬ placeholder k <:+: substituteFields fields content) :
    substituteFields fields (substituteFields fields content) =
      substituteFields fields content :=
  substituteFields_eq_self fields _ h

/-- C7 witness: the spec's own example — body `Hello` followed by the
`title` placeholder, field `title = Test` — substitutes once to
`Hello Test`, and a second pass leaves it unchanged. -/
theorem c7_amended_idempotent_witness :
    substituteFields [("title".toList, Value.str "Test".toList)]
        (substituteFields [("title".toList, Value.str "Test".toList)]
          ("Hello ".toList ++ placeholder "title".toList)) =
      substituteFields [("title".toList, Value.str "Test".toList)]
        ("Hello ".toList ++ placeholder "title".toList) :=
  c7_amended_idempotent _ _ (by
    intro k v hm
    simp only [List.mem_singleton, Prod.mk.injEq, Value.str.injEq] at hm
    obtain ⟨hk, hv⟩ := hm
    subst hk
    subst hv
    decide)

/-- C8: entry-point detection over the template text: a template declaring
`#let letter(` yields the name `letter`, and a template with no matching
declaration yields the fallback name `report`. -/
theorem c8_entry_point_detection :
    detectTemplateFunc "#let letter(title: none, body) = body".toList = "letter".toList ∧
    detectTemplateFunc "a template with no declaration".toList = "report".toList := by
  decide

/-- C9 counterexample: the full per-row filename also embeds the
user-chosen output stem verbatim; with stem `my out` and recipient
`John Smith` the produced filename still contains a space, refuting the
claim that the resulting filename contains no spaces. -/
theorem c9_counterexample :
    rowFileName "my out".toList 0 [(recipientKey, "John Smith".toList)] =
      "my out_John_Smith.pdf".toList ∧
    ' ' ∈ rowFileName "my out".toList 0 [(recipientKey, "John Smith".toList)] := by
  decide

/-- C9 amended: the filename component derived from the recipient field
has every space and `/` replaced by an underscore, so that component
contains no spaces and no `/`; the full filename prepends the output stem
(verbatim, so it is space-free exactly when the stem is) and rows without
a recipient field are named by their 1-based row index. -/
theorem c9_amended_row_naming (base : List Char) (i : Nat)
    (row : List (List Char × List Char)) :
    (∀ r, row.lookup recipientKey = some r →
      rowFileName base i row = base ++ '_' :: (sanitizeRecipient r ++ ".pdf".toList) ∧
      ' ' ∉ sanitizeRecipient r ∧ '/' ∉ sanitizeRecipient r) ∧
    (row.lookup recipientKey = none →
      rowFileName base i row = base ++ '_' :: ((toString (i + 1)).toList ++ ".pdf".toList)) := by
  constructor
  · intro r hr
    refine ⟨?_, sanitizeRecipient_clean r⟩
    unfold rowFileName
    rw [hr]
  · intro hr
    unfold rowFileName
    rw [hr]

/-- C9 witness: the amended theorem applied to a row with recipient
`A B/C` and to a row with no recipient field. -/
theorem c9_amended_row_naming_witness :
    (rowFileName "out".toList 0 [(recipientKey, "A B/C".toList)] =
      "out".toList ++ '_' :: (sanitizeRecipient "A B/C".toList ++ ".pdf".toList) ∧
      ' ' ∉ sanitizeRecipient "A B/C".toList ∧ '/' ∉ sanitizeRecipient "A B/C".toList) ∧
    rowFileName "base".toList 1 [("name".toList, "X".toList)] =
      "base".toList ++ '_' :: ((toString (1 + 1)).toList ++ ".pdf".toList) :=
  ⟨(c9_amended_row_naming "out".toList 0 _).1 "A B/C".toList (by rfl),
   (c9_amended_row_naming "base".toList 1 _).2 (by rfl)⟩
